import Mathlib

/-!
Shallow embedding of `src/DPORDriver.cpp` (Nidhugg's exploration driver).

The driver code is glue around external collaborators (LLVM parser,
Interpreter / TSOInterpreter, TSOTraceBuilder, SigSegvHandler).  Those
collaborators are modelled as parameters / oracles:

* `parse : String → Option LlvmModule` models `llvm::ParseIR` on the stored
  source text (`none` = parse failure, which the C++ converts into a
  thrown `std::logic_error`);
* each run's interaction with the TraceBuilder and execution engine is
  summarised by a `RunOutcome` record: whether `ExecutionEngine` creation
  succeeds, what `TB.has_error()`, `TB.sleepset_is_empty()` and
  `TB.reset()` report at the end of the run, and what
  `Interpreter::getTrace()` would return;
* the sequence of runs of one exploration is an oracle list
  `outcomes : List RunOutcome`, one entry per executed run.

Every operation additionally emits a log of `DriverAction`s (signal-handler
setup/reset, reparse, run_once entry, running the modelled program,
robustness check, `TB.reset()` calls, TraceBuilder deletion) so that the
temporal structure of `DPORDriver::run` is visible in the model.

Exceptions (`throw std::logic_error(...)` in the C++) are modelled with
`Except DriverErr`; since the driver contains no try/catch, an error
value aborts the enclosing control flow exactly like the C++ throw.

`DPORDriver.run`'s unbounded do/while loop is modelled by structural
recursion on the oracle list: `none` means the oracle list was exhausted
while the loop wanted to continue (i.e. the given prefix of collaborator
behaviour does not determine termination), `some` gives the action log
and the outcome (normal `Result` or propagated exception) of a completed
call of `run()`.
-/

/-- Memory models of `Configuration`; `Other` stands for any value hitting
the `default:` branch of the C++ switches. -/
inductive MemoryModel
  | SC
  | TSO
  | Other
deriving DecidableEq, Repr

/-- The configuration fields read by `DPORDriver.cpp`. -/
structure Configuration where
  memory_model : MemoryModel
  explore_all_traces : Bool
  debug_collect_all_traces : Bool
  check_robustness : Bool
deriving DecidableEq, Repr

/-- Modelled from the spec: a `Trace` is "the ordered sequence of Events
for one run, plus an error flag and, when set, an error description";
the class itself lives outside `src/`.  Events and error descriptions
are abstracted as lists; the C++ `Trace t({},{},{})` of
`DPORDriver::run_once` is the all-empty `Trace.empty`. -/
structure Trace where
  events : List Nat
  event_md : List Nat
  errors : List String
deriving DecidableEq, Repr

/-- The `Trace t({},{},{})` built by `run_once`: no events, no errors. -/
def Trace.empty : Trace := { events := [], event_md := [], errors := [] }

/-- Modelled from the spec: `Trace::has_errors()` — the trace's error flag,
set exactly when the error list is non-empty. -/
def Trace.has_errors (t : Trace) : Bool := !t.errors.isEmpty

/-- A parsed LLVM module, abstracted to what `DPORDriver.cpp` queries:
whether `getFunction("main")` succeeds, and its data layout string. -/
structure LlvmModule where
  has_main : Bool
  dataLayout : String
deriving DecidableEq, Repr

/-- The mutable state of a `DPORDriver` object: the stored source text
`src` and the current module `mod`. -/
structure DriverState where
  src : String
  mod : LlvmModule
deriving DecidableEq, Repr

/-- Oracle summary of one run's interaction with the external
collaborators (execution engine, TraceBuilder): whether EE creation
succeeds, the values of `TB.has_error()` and `TB.sleepset_is_empty()`
when the run ends, the trace `getTrace()` would produce, and what
`TB.reset()` returns after the run. -/
structure RunOutcome where
  ee_create_ok : Bool
  tb_has_error : Bool
  sleepset_empty : Bool
  full_trace : Trace
  reset_ok : Bool
deriving DecidableEq, Repr

/-- The distinguishable `std::logic_error`s thrown by `DPORDriver.cpp`. -/
inductive DriverErr
  | parseFailed
  | checkFunctionsFailed
  | unsupportedMemoryModel
  | errorCreatingEE
  | noMainFunction
deriving DecidableEq, Repr

/-- Observable actions of the driver, logged in execution order. -/
inductive DriverAction
  | setupSignalHandler
  | resetSignalHandler
  | reparseAct
  | runOnceCall
  | createEE
  | runStaticCtors
  | runMain
  | runStaticDtors
  | checkCycles
  | resetTB (b : Bool)
  | deleteTB
deriving DecidableEq, Repr

/-- `DPORDriver::Result` (from the driver's header): counters, the error
trace (default-constructed empty until the first erroneous run), and the
optionally collected traces. -/
structure DPORDriver.Result where
  trace_count : Nat
  sleepset_blocked_trace_count : Nat
  error_trace : Trace
  all_traces : List Trace
deriving DecidableEq, Repr

/-- The default-constructed `Result res;` at the top of `DPORDriver::run`. -/
def DPORDriver.Result.init : DPORDriver.Result :=
  { trace_count := 0, sleepset_blocked_trace_count := 0,
    error_trace := Trace.empty, all_traces := [] }

/-- Modelled from the spec: `Result::has_errors()` reports whether an
error trace has been recorded (the result carries the "first error
trace"); it holds exactly when `error_trace` has errors. -/
def DPORDriver.Result.has_errors (r : DPORDriver.Result) : Bool :=
  r.error_trace.has_errors

/-- `DPORDriver::reparse()`: discard the module and re-parse the stored
source `src`; on parse failure throw; otherwise, if the new module has an
empty data layout, set it from the host endianness. -/
def DPORDriver.reparse (parse : String → Option LlvmModule) (littleEndian : Bool)
    (st : DriverState) : Except DriverErr DriverState :=
  match parse st.src with
  | none => Except.error DriverErr.parseFailed
  | some m =>
    let m1 := if m.dataLayout = "" then
        { m with dataLayout := if littleEndian then "e" else "E" }
      else m
    Except.ok { st with mod := m1 }

/-- `DPORDriver::parseIR`: store the source text, `reparse()`, then run
`CheckModule::check_functions` (modelled by the external predicate
`checkOk`; `false` = it throws). -/
def DPORDriver.parseIR (parse : String → Option LlvmModule) (checkOk : LlvmModule → Bool)
    (littleEndian : Bool) (llvm_asm : String) : Except DriverErr DriverState :=
  match DPORDriver.reparse parse littleEndian
      { src := llvm_asm, mod := { has_main := false, dataLayout := "" } } with
  | Except.error e => Except.error e
  | Except.ok st =>
    if checkOk st.mod then Except.ok st else Except.error DriverErr.checkFunctionsFailed

/-- The trace value computed at the end of `DPORDriver::run_once`: the
interpreter's full trace when `TB.has_error()` or
`conf.debug_collect_all_traces`, and the empty trace otherwise
("else avoid computing trace"). -/
def onceTrace (conf : Configuration) (o : RunOutcome) : Trace :=
  if o.tb_has_error || conf.debug_collect_all_traces then o.full_trace else Trace.empty

/-- The action log of a `run_once` call that reaches the end of the
function body. -/
def okLog (conf : Configuration) : List DriverAction :=
  [DriverAction.runOnceCall, DriverAction.createEE, DriverAction.runStaticCtors, DriverAction.runMain,
   DriverAction.runStaticDtors] ++
    (if conf.check_robustness then [DriverAction.checkCycles] else [])

/-- `DPORDriver::run_once(TB)`: create the execution engine for the
configured memory model (throwing on the `default:` branch or on
creation failure), check that the module has a `main` function (throwing
otherwise, before any modelled-program instruction runs), then run
static constructors, `main`, static destructors, `checkForCycles()` when
robustness checking is enabled, and return the (possibly elided) trace. -/
def DPORDriver.run_once (conf : Configuration) (mod : LlvmModule) (o : RunOutcome) :
    List DriverAction × Except DriverErr Trace :=
  match conf.memory_model with
  | MemoryModel.Other =>
    ([DriverAction.runOnceCall], Except.error DriverErr.unsupportedMemoryModel)
  | _ =>
    if !o.ee_create_ok then
      ([DriverAction.runOnceCall, DriverAction.createEE], Except.error DriverErr.errorCreatingEE)
    else if !mod.has_main then
      ([DriverAction.runOnceCall, DriverAction.createEE], Except.error DriverErr.noMainFunction)
    else
      (okLog conf, Except.ok (onceTrace conf o))

/-- The `Result` update performed by one loop iteration of
`DPORDriver::run` on trace `t`: push `t` when collecting all traces,
bump exactly one of the two counters according to
`TB.sleepset_is_empty()`, and record `t` as the error trace when `t` has
errors and no error trace was recorded before. -/
def updateRes (conf : Configuration) (res : DPORDriver.Result)
    (sleepEmpty : Bool) (t : Trace) : DPORDriver.Result :=
  let res1 := if conf.debug_collect_all_traces then
      { res with all_traces := res.all_traces ++ [t] }
    else res
  let res2 := if sleepEmpty then
      { res1 with trace_count := res1.trace_count + 1 }
    else
      { res1 with sleepset_blocked_trace_count := res1.sleepset_blocked_trace_count + 1 }
  if t.has_errors && !res2.has_errors then { res2 with error_trace := t } else res2

/-- The `if((computation_count+1) % 1000 == 0){ reparse(); }` at the top
of each loop iteration of `DPORDriver::run`. -/
def maybeReparse (parse : String → Option LlvmModule) (littleEndian : Bool)
    (st : DriverState) (cc : Nat) : List DriverAction × Except DriverErr DriverState :=
  if (cc + 1) % 1000 = 0 then ([DriverAction.reparseAct], DPORDriver.reparse parse littleEndian st)
  else ([], Except.ok st)

/-- How one loop iteration of `DPORDriver::run` ends: a propagated
exception, `break` (error found and not exploring all traces), loop exit
because `TB.reset()` returned false, or continuation. -/
inductive IterStep
  | thrown (e : DriverErr)
  | brk
  | done
  | cont
deriving DecidableEq, Repr

/-- One iteration of the do/while loop of `DPORDriver::run`: optional
periodic `reparse()`, `run_once`, result bookkeeping, the `break` test,
and the `TB.reset()` loop test.  Returns the iteration's action log, the
driver state and accumulated result afterwards, and how the iteration
ended. -/
def runIter (conf : Configuration) (parse : String → Option LlvmModule)
    (littleEndian : Bool) (st : DriverState) (res : DPORDriver.Result)
    (cc : Nat) (o : RunOutcome) :
    List DriverAction × DriverState × DPORDriver.Result × IterStep :=
  let rp := maybeReparse parse littleEndian st cc
  match rp.2 with
  | Except.error e => (rp.1, st, res, IterStep.thrown e)
  | Except.ok st1 =>
    let once := DPORDriver.run_once conf st1.mod o
    match once.2 with
    | Except.error e => (rp.1 ++ once.1, st1, res, IterStep.thrown e)
    | Except.ok t =>
      let res1 := updateRes conf res o.sleepset_empty t
      if t.has_errors && !conf.explore_all_traces then
        (rp.1 ++ once.1, st1, res1, IterStep.brk)
      else if o.reset_ok then
        (rp.1 ++ once.1 ++ [DriverAction.resetTB true], st1, res1, IterStep.cont)
      else
        (rp.1 ++ once.1 ++ [DriverAction.resetTB false], st1, res1, IterStep.done)

/-- The do/while loop of `DPORDriver::run`, driven by the oracle list of
run outcomes (one entry consumed per executed run).  `none`: the oracle
list was exhausted while the loop wanted to continue. -/
def runLoop (conf : Configuration) (parse : String → Option LlvmModule)
    (littleEndian : Bool) :
    DriverState → DPORDriver.Result → Nat → List RunOutcome →
    Option (List DriverAction × Except DriverErr DPORDriver.Result)
  | _, _, _, [] => none
  | st, res, cc, o :: rest =>
    let it := runIter conf parse littleEndian st res cc o
    match it.2.2.2 with
    | IterStep.thrown e => some (it.1, Except.error e)
    | IterStep.brk => some (it.1, Except.ok it.2.2.1)
    | IterStep.done => some (it.1, Except.ok it.2.2.1)
    | IterStep.cont =>
      match runLoop conf parse littleEndian it.2.1 it.2.2.1 (cc + 1) rest with
      | none => none
      | some (log2, r) => some (it.1 ++ log2, r)

/-- `DPORDriver::run()`: allocate the TraceBuilder (throwing on an
unsupported memory model, before the signal handler is touched), install
the SIGSEGV handler, run the exploration loop, and on normal loop exit
reset the handler, delete the TraceBuilder and return the accumulated
`Result`.  A thrown exception propagates without the handler reset or
the TraceBuilder deletion. -/
def DPORDriver.run (conf : Configuration) (parse : String → Option LlvmModule)
    (littleEndian : Bool) (st : DriverState) (outcomes : List RunOutcome) :
    Option (List DriverAction × Except DriverErr DPORDriver.Result) :=
  match conf.memory_model with
  | MemoryModel.Other => some ([], Except.error DriverErr.unsupportedMemoryModel)
  | _ =>
    match runLoop conf parse littleEndian st DPORDriver.Result.init 0 outcomes with
    | none => none
    | some (log, Except.error e) =>
      some (DriverAction.setupSignalHandler :: log, Except.error e)
    | some (log, Except.ok res) =>
      some (DriverAction.setupSignalHandler ::
        (log ++ [DriverAction.resetSignalHandler, DriverAction.deleteTB]), Except.ok res)

/-- `DPORDriver::parseIR` followed by `run()` on the resulting driver:
the whole pipeline from source text to exploration result, used to state
that parse failures abort before exploration starts. -/
def parseIRandRun (conf : Configuration) (parse : String → Option LlvmModule)
    (checkOk : LlvmModule → Bool) (littleEndian : Bool) (llvm_asm : String)
    (outcomes : List RunOutcome) :
    Option (List DriverAction × Except DriverErr DPORDriver.Result) :=
  match DPORDriver.parseIR parse checkOk littleEndian llvm_asm with
  | Except.error e => some ([], Except.error e)
  | Except.ok st => DPORDriver.run conf parse littleEndian st outcomes

/-! ### Helper lemmas about single steps -/

/-- Whether an iteration ended in a propagated exception. -/
def IterStep.isThrown : IterStep → Bool
  | IterStep.thrown _ => true
  | _ => false

theorem run_once_ok (conf : Configuration) (mod : LlvmModule) (o : RunOutcome)
    (hmm : conf.memory_model ≠ MemoryModel.Other)
    (hee : o.ee_create_ok = true) (hmain : mod.has_main = true) :
    DPORDriver.run_once conf mod o = (okLog conf, Except.ok (onceTrace conf o)) := by
  obtain ⟨mm, ex, dc, cr⟩ := conf
  obtain ⟨ee, tbe, se, ft, ro⟩ := o
  obtain ⟨hm, dl⟩ := mod
  simp only at hee hmain hmm
  subst hee hmain
  cases mm <;> simp_all [DPORDriver.run_once]

theorem run_once_ok_val (conf : Configuration) (mod : LlvmModule) (o : RunOutcome)
    (t : Trace) (h : (DPORDriver.run_once conf mod o).2 = Except.ok t) :
    t = onceTrace conf o := by
  obtain ⟨mm, ex, dc, cr⟩ := conf
  obtain ⟨ee, tbe, se, ft, ro⟩ := o
  obtain ⟨hm, dl⟩ := mod
  cases mm <;> cases ee <;> cases hm <;> simp_all [DPORDriver.run_once]

theorem run_once_count (conf : Configuration) (mod : LlvmModule) (o : RunOutcome) :
    (DPORDriver.run_once conf mod o).1.count DriverAction.runOnceCall = 1 := by
  obtain ⟨mm, ex, dc, cr⟩ := conf
  obtain ⟨ee, tbe, se, ft, ro⟩ := o
  obtain ⟨hm, dl⟩ := mod
  cases mm <;> cases ee <;> cases hm <;> cases cr <;> rfl

theorem run_once_actions (conf : Configuration) (mod : LlvmModule) (o : RunOutcome)
    (a : DriverAction) (h : a ∈ (DPORDriver.run_once conf mod o).1) :
    a = DriverAction.runOnceCall ∨ a = DriverAction.createEE ∨
    a = DriverAction.runStaticCtors ∨ a = DriverAction.runMain ∨
    a = DriverAction.runStaticDtors ∨ a = DriverAction.checkCycles := by
  obtain ⟨mm, ex, dc, cr⟩ := conf
  obtain ⟨ee, tbe, se, ft, ro⟩ := o
  obtain ⟨hm, dl⟩ := mod
  cases mm <;> cases ee <;> cases hm <;> cases cr <;>
    simp_all [DPORDriver.run_once, okLog] <;> tauto

theorem updateRes_trace_count (conf : Configuration) (res : DPORDriver.Result)
    (se : Bool) (t : Trace) :
    (updateRes conf res se t).trace_count
      = res.trace_count + (if se then 1 else 0) := by
  obtain ⟨mm, ex, dc, cr⟩ := conf
  unfold updateRes
  cases dc <;> cases se <;>
    simp [apply_ite DPORDriver.Result.trace_count]

theorem updateRes_blocked_count (conf : Configuration) (res : DPORDriver.Result)
    (se : Bool) (t : Trace) :
    (updateRes conf res se t).sleepset_blocked_trace_count
      = res.sleepset_blocked_trace_count + (if se then 0 else 1) := by
  obtain ⟨mm, ex, dc, cr⟩ := conf
  unfold updateRes
  cases dc <;> cases se <;>
    simp [apply_ite DPORDriver.Result.sleepset_blocked_trace_count]

theorem updateRes_error_trace (conf : Configuration) (res : DPORDriver.Result)
    (se : Bool) (t : Trace) :
    (updateRes conf res se t).error_trace
      = (if t.has_errors && !res.has_errors then t else res.error_trace) := by
  obtain ⟨mm, ex, dc, cr⟩ := conf
  unfold updateRes
  cases dc <;> cases se <;> cases h : t.has_errors <;>
    simp [apply_ite DPORDriver.Result.error_trace, DPORDriver.Result.has_errors, h]

theorem maybeReparse_mem (parse : String → Option LlvmModule) (little : Bool)
    (st : DriverState) (cc : Nat) :
    DriverAction.reparseAct ∈ (maybeReparse parse little st cc).1
      ↔ (cc + 1) % 1000 = 0 := by
  unfold maybeReparse
  split <;> simp_all

theorem maybeReparse_actions (parse : String → Option LlvmModule) (little : Bool)
    (st : DriverState) (cc : Nat) (a : DriverAction)
    (h : a ∈ (maybeReparse parse little st cc).1) : a = DriverAction.reparseAct := by
  unfold maybeReparse at h
  split at h <;> simp_all

theorem maybeReparse_count (parse : String → Option LlvmModule) (little : Bool)
    (st : DriverState) (cc : Nat) :
    (maybeReparse parse little st cc).1.count DriverAction.runOnceCall = 0 := by
  unfold maybeReparse
  split <;> rfl

theorem reparse_src (parse : String → Option LlvmModule) (little : Bool)
    (st st' : DriverState) (h : DPORDriver.reparse parse little st = Except.ok st') :
    st'.src = st.src ∧ ∃ m, parse st.src = some m := by
  unfold DPORDriver.reparse at h
  cases hp : parse st.src <;> rw [hp] at h
  · exact absurd h (by simp)
  · simp only [Except.ok.injEq] at h
    subst h
    exact ⟨rfl, _, rfl⟩

theorem maybeReparse_src (parse : String → Option LlvmModule) (little : Bool)
    (st st' : DriverState) (cc : Nat)
    (h : (maybeReparse parse little st cc).2 = Except.ok st') : st'.src = st.src := by
  unfold maybeReparse at h
  split at h <;> simp only [] at h
  · exact (reparse_src parse little st st' h).1
  · simp only [Except.ok.injEq] at h
    subst h
    rfl

theorem maybeReparse_count_resetTB (parse : String → Option LlvmModule) (little : Bool)
    (st : DriverState) (cc : Nat) (b : Bool) :
    (maybeReparse parse little st cc).1.count (DriverAction.resetTB b) = 0 := by
  unfold maybeReparse
  cases b <;> split <;> rfl

theorem run_once_count_resetTB (conf : Configuration) (mod : LlvmModule)
    (o : RunOutcome) (b : Bool) :
    (DPORDriver.run_once conf mod o).1.count (DriverAction.resetTB b) = 0 := by
  obtain ⟨mm, ex, dc, cr⟩ := conf
  obtain ⟨ee, tbe, se, ft, ro⟩ := o
  obtain ⟨hm, dl⟩ := mod
  cases mm <;> cases ee <;> cases hm <;> cases cr <;> cases b <;> rfl

theorem runIter_spec (conf : Configuration) (parse : String → Option LlvmModule)
    (little : Bool) (st : DriverState) (res : DPORDriver.Result) (cc : Nat)
    (o : RunOutcome)
    (hnt : ((runIter conf parse little st res cc o).2.2.2).isThrown = false) :
    (runIter conf parse little st res cc o).2.2.1
        = updateRes conf res o.sleepset_empty (onceTrace conf o)
    ∧ (runIter conf parse little st res cc o).1.count DriverAction.runOnceCall = 1
    ∧ (runIter conf parse little st res cc o).2.2.2
        = (if (onceTrace conf o).has_errors && !conf.explore_all_traces
            then IterStep.brk
            else if o.reset_ok then IterStep.cont else IterStep.done)
    ∧ (runIter conf parse little st res cc o).2.1.src = st.src
    ∧ (runIter conf parse little st res cc o).1.count (DriverAction.resetTB true)
        = (if o.reset_ok && !((onceTrace conf o).has_errors && !conf.explore_all_traces)
            then 1 else 0) := by
  cases hrp : (maybeReparse parse little st cc).2 with
  | error e =>
    exfalso
    simp only [runIter, hrp] at hnt
    simp [IterStep.isThrown] at hnt
  | ok st1 =>
    cases hro : (DPORDriver.run_once conf st1.mod o).2 with
    | error e =>
      exfalso
      simp only [runIter, hrp, hro] at hnt
      simp [IterStep.isThrown] at hnt
    | ok t =>
      have ht : t = onceTrace conf o := run_once_ok_val _ _ _ _ hro
      subst ht
      have hsrc : st1.src = st.src := maybeReparse_src _ _ _ _ _ hrp
      simp only [runIter, hrp, hro]
      by_cases hbrk : ((onceTrace conf o).has_errors && !conf.explore_all_traces) = true
      · simp [hbrk, hsrc, List.count_append, maybeReparse_count, run_once_count,
          maybeReparse_count_resetTB, run_once_count_resetTB]
      · rw [Bool.not_eq_true] at hbrk
        by_cases hrst : o.reset_ok = true
        · simp [hbrk, hrst, hsrc, List.count_append, maybeReparse_count, run_once_count,
            maybeReparse_count_resetTB, run_once_count_resetTB]
        · rw [Bool.not_eq_true] at hrst
          simp [hbrk, hrst, hsrc, List.count_append, maybeReparse_count, run_once_count,
            maybeReparse_count_resetTB, run_once_count_resetTB]

theorem run_once_no_reparse (conf : Configuration) (mod : LlvmModule) (o : RunOutcome) :
    DriverAction.reparseAct ∉ (DPORDriver.run_once conf mod o).1 := by
  intro h
  rcases run_once_actions conf mod o _ h with h1 | h1 | h1 | h1 | h1 | h1 <;> cases h1

theorem runIter_reparse_mem (conf : Configuration) (parse : String → Option LlvmModule)
    (little : Bool) (st : DriverState) (res : DPORDriver.Result) (cc : Nat)
    (o : RunOutcome) :
    DriverAction.reparseAct ∈ (runIter conf parse little st res cc o).1
      ↔ (cc + 1) % 1000 = 0 := by
  cases hrp : (maybeReparse parse little st cc).2 with
  | error e =>
    simp only [runIter, hrp]
    exact maybeReparse_mem parse little st cc
  | ok st1 =>
    cases hro : (DPORDriver.run_once conf st1.mod o).2 with
    | error e =>
      simp only [runIter, hrp, hro]
      simp [List.mem_append, maybeReparse_mem, run_once_no_reparse]
    | ok t =>
      simp only [runIter, hrp, hro]
      by_cases hbrk : (t.has_errors && !conf.explore_all_traces) = true
      · simp [hbrk, List.mem_append, maybeReparse_mem, run_once_no_reparse]
      · rw [Bool.not_eq_true] at hbrk
        by_cases hrst : o.reset_ok = true
        · simp [hbrk, hrst, List.mem_append, maybeReparse_mem, run_once_no_reparse]
        · rw [Bool.not_eq_true] at hrst
          simp [hbrk, hrst, List.mem_append, maybeReparse_mem, run_once_no_reparse]

theorem runIter_actions (conf : Configuration) (parse : String → Option LlvmModule)
    (little : Bool) (st : DriverState) (res : DPORDriver.Result) (cc : Nat)
    (o : RunOutcome) (a : DriverAction)
    (h : a ∈ (runIter conf parse little st res cc o).1) :
    a = DriverAction.reparseAct ∨ a = DriverAction.runOnceCall ∨
    a = DriverAction.createEE ∨ a = DriverAction.runStaticCtors ∨
    a = DriverAction.runMain ∨ a = DriverAction.runStaticDtors ∨
    a = DriverAction.checkCycles ∨ (∃ b, a = DriverAction.resetTB b) := by
  cases hrp : (maybeReparse parse little st cc).2 with
  | error e =>
    simp only [runIter, hrp] at h
    exact Or.inl (maybeReparse_actions _ _ _ _ _ h)
  | ok st1 =>
    cases hro : (DPORDriver.run_once conf st1.mod o).2 with
    | error e =>
      simp only [runIter, hrp, hro] at h
      rcases List.mem_append.mp h with h1 | h1
      · exact Or.inl (maybeReparse_actions _ _ _ _ _ h1)
      · rcases run_once_actions _ _ _ _ h1 with h2 | h2 | h2 | h2 | h2 | h2 <;> tauto
    | ok t =>
      simp only [runIter, hrp, hro] at h
      have main : ∀ tail : List DriverAction,
          a ∈ (maybeReparse parse little st cc).1
              ++ (DPORDriver.run_once conf st1.mod o).1 ++ tail →
          (∃ b, tail = [DriverAction.resetTB b]) ∨ tail = [] →
          a = DriverAction.reparseAct ∨ a = DriverAction.runOnceCall ∨
          a = DriverAction.createEE ∨ a = DriverAction.runStaticCtors ∨
          a = DriverAction.runMain ∨ a = DriverAction.runStaticDtors ∨
          a = DriverAction.checkCycles ∨ (∃ b, a = DriverAction.resetTB b) := by
        intro tail hmem htail
        rcases List.mem_append.mp hmem with h1 | h1
        · rcases List.mem_append.mp h1 with h2 | h2
          · exact Or.inl (maybeReparse_actions _ _ _ _ _ h2)
          · rcases run_once_actions _ _ _ _ h2 with h3 | h3 | h3 | h3 | h3 | h3 <;> tauto
        · rcases htail with ⟨b, rfl⟩ | rfl
          · have hb := List.mem_singleton.mp h1
            exact Or.inr (Or.inr (Or.inr (Or.inr (Or.inr (Or.inr (Or.inr ⟨b, hb⟩))))))
          · cases h1
      by_cases hbrk : (t.has_errors && !conf.explore_all_traces) = true
      · rw [if_pos hbrk] at h
        exact main [] (by simpa using h) (Or.inr rfl)
      · rw [if_neg hbrk] at h
        by_cases hrst : o.reset_ok = true
        · rw [if_pos hrst] at h
          exact main [DriverAction.resetTB true] (by simpa using h) (Or.inl ⟨true, rfl⟩)
        · rw [if_neg hrst] at h
          exact main [DriverAction.resetTB false] (by simpa using h) (Or.inl ⟨false, rfl⟩)

theorem runIter_no_handler (conf : Configuration) (parse : String → Option LlvmModule)
    (little : Bool) (st : DriverState) (res : DPORDriver.Result) (cc : Nat)
    (o : RunOutcome) (a : DriverAction)
    (h : a ∈ (runIter conf parse little st res cc o).1) :
    a ≠ DriverAction.setupSignalHandler ∧ a ≠ DriverAction.resetSignalHandler
      ∧ a ≠ DriverAction.deleteTB := by
  rcases runIter_actions conf parse little st res cc o a h with
    h1 | h1 | h1 | h1 | h1 | h1 | h1 | ⟨b, h1⟩ <;> subst h1 <;>
    refine ⟨?_, ?_, ?_⟩ <;> simp

theorem runLoop_actions (conf : Configuration) (parse : String → Option LlvmModule)
    (little : Bool) :
    ∀ (outs : List RunOutcome) (st : DriverState) (res : DPORDriver.Result) (cc : Nat)
      (log : List DriverAction) (r : Except DriverErr DPORDriver.Result),
      runLoop conf parse little st res cc outs = some (log, r) →
      ∀ a ∈ log, a ≠ DriverAction.setupSignalHandler ∧ a ≠ DriverAction.resetSignalHandler
        ∧ a ≠ DriverAction.deleteTB := by
  intro outs
  induction outs with
  | nil =>
    intro st res cc log r hl
    simp [runLoop] at hl
  | cons o rest ih =>
    intro st res cc log r hl
    rcases hit : runIter conf parse little st res cc o with ⟨l1, st1, res1, step⟩
    have hl1 : ∀ a ∈ l1,
        a ≠ DriverAction.setupSignalHandler ∧ a ≠ DriverAction.resetSignalHandler
          ∧ a ≠ DriverAction.deleteTB := by
      intro a ha
      exact runIter_no_handler conf parse little st res cc o a (by rw [hit]; exact ha)
    simp only [runLoop] at hl
    rw [hit] at hl
    dsimp only at hl
    cases step with
    | thrown e =>
      obtain ⟨rfl, rfl⟩ : l1 = log ∧ Except.error e = r := by
        simpa using hl
      exact hl1
    | brk =>
      obtain ⟨rfl, rfl⟩ : l1 = log ∧ Except.ok res1 = r := by
        simpa using hl
      exact hl1
    | done =>
      obtain ⟨rfl, rfl⟩ : l1 = log ∧ Except.ok res1 = r := by
        simpa using hl
      exact hl1
    | cont =>
      cases hrec : runLoop conf parse little st1 res1 (cc + 1) rest with
      | none =>
        rw [hrec] at hl
        simp at hl
      | some p =>
        obtain ⟨log2, r2⟩ := p
        rw [hrec] at hl
        obtain ⟨hlog, hr⟩ : l1 ++ log2 = log ∧ r2 = r := by
          simpa using hl
        subst hlog
        intro a ha
        rcases List.mem_append.mp ha with h1 | h1
        · exact hl1 a h1
        · exact ih st1 res1 (cc + 1) log2 r2 hrec a h1

theorem runLoop_ok_spec (conf : Configuration) (parse : String → Option LlvmModule)
    (little : Bool) :
    ∀ (outs : List RunOutcome) (st : DriverState) (res : DPORDriver.Result) (cc : Nat)
      (log : List DriverAction) (res' : DPORDriver.Result),
      runLoop conf parse little st res cc outs = some (log, Except.ok res') →
      (res'.trace_count + res'.sleepset_blocked_trace_count
          = res.trace_count + res.sleepset_blocked_trace_count
              + log.count DriverAction.runOnceCall)
      ∧ log.count DriverAction.runOnceCall = log.count (DriverAction.resetTB true) + 1
      ∧ (res.has_errors = true → res'.error_trace = res.error_trace)
      ∧ ((∀ p ∈ outs, (onceTrace conf p).has_errors = false) →
          res'.error_trace = res.error_trace) := by
  intro outs
  induction outs with
  | nil =>
    intro st res cc log res' hl
    simp [runLoop] at hl
  | cons o rest ih =>
    intro st res cc log res' hl
    rcases hit : runIter conf parse little st res cc o with ⟨l1, st1, res1, step⟩
    simp only [runLoop] at hl
    rw [hit] at hl
    dsimp only at hl
    cases step with
    | thrown e => simp at hl
    | brk =>
      have hnt : ((runIter conf parse little st res cc o).2.2.2).isThrown = false := by
        rw [hit]; rfl
      obtain ⟨hres1, hcnt, hstep, hsrc, hrtb⟩ := runIter_spec conf parse little st res cc o hnt
      rw [hit] at hres1 hcnt hstep hsrc hrtb
      dsimp only at hres1 hcnt hstep hsrc hrtb
      obtain ⟨hlog, hres'⟩ : l1 = log ∧ res1 = res' := by simpa using hl
      subst hlog
      subst hres'
      have hC : ((onceTrace conf o).has_errors && !conf.explore_all_traces) = true := by
        by_cases hC : ((onceTrace conf o).has_errors && !conf.explore_all_traces) = true
        · exact hC
        · rw [if_neg hC] at hstep
          by_cases hR : o.reset_ok = true
          · rw [if_pos hR] at hstep; simp at hstep
          · rw [if_neg hR] at hstep; simp at hstep
      subst hres1
      refine ⟨?_, ?_, ?_, ?_⟩
      · rw [hcnt, updateRes_trace_count, updateRes_blocked_count]
        cases o.sleepset_empty <;> simp <;> omega
      · rw [hcnt, hrtb, hC]
        simp
      · intro hre
        rw [updateRes_error_trace, hre]
        simp [DPORDriver.Result.has_errors] at hre
        simp [hre]
      · intro hall
        have h0 : (onceTrace conf o).has_errors = false := hall o (List.mem_cons_self o rest)
        rw [updateRes_error_trace, h0]
        simp
    | done =>
      have hnt : ((runIter conf parse little st res cc o).2.2.2).isThrown = false := by
        rw [hit]; rfl
      obtain ⟨hres1, hcnt, hstep, hsrc, hrtb⟩ := runIter_spec conf parse little st res cc o hnt
      rw [hit] at hres1 hcnt hstep hsrc hrtb
      dsimp only at hres1 hcnt hstep hsrc hrtb
      obtain ⟨hlog, hres'⟩ : l1 = log ∧ res1 = res' := by simpa using hl
      subst hlog
      subst hres'
      have hR : o.reset_ok = false := by
        by_cases hC : ((onceTrace conf o).has_errors && !conf.explore_all_traces) = true
        · rw [if_pos hC] at hstep; simp at hstep
        · rw [if_neg hC] at hstep
          by_cases hR : o.reset_ok = true
          · rw [if_pos hR] at hstep; simp at hstep
          · simpa using hR
      subst hres1
      refine ⟨?_, ?_, ?_, ?_⟩
      · rw [hcnt, updateRes_trace_count, updateRes_blocked_count]
        cases o.sleepset_empty <;> simp <;> omega
      · rw [hcnt, hrtb, hR]
        simp
      · intro hre
        rw [updateRes_error_trace, hre]
        simp [DPORDriver.Result.has_errors] at hre
        simp [hre]
      · intro hall
        have h0 : (onceTrace conf o).has_errors = false := hall o (List.mem_cons_self o rest)
        rw [updateRes_error_trace, h0]
        simp
    | cont =>
      have hnt : ((runIter conf parse little st res cc o).2.2.2).isThrown = false := by
        rw [hit]; rfl
      obtain ⟨hres1, hcnt, hstep, hsrc, hrtb⟩ := runIter_spec conf parse little st res cc o hnt
      rw [hit] at hres1 hcnt hstep hsrc hrtb
      dsimp only at hres1 hcnt hstep hsrc hrtb
      have hCR : ((onceTrace conf o).has_errors && !conf.explore_all_traces) = false
          ∧ o.reset_ok = true := by
        by_cases hC : ((onceTrace conf o).has_errors && !conf.explore_all_traces) = true
        · rw [if_pos hC] at hstep; simp at hstep
        · by_cases hR : o.reset_ok = true
          · exact ⟨by simpa using hC, hR⟩
          · rw [if_neg hC, if_neg hR] at hstep; simp at hstep
      cases hrec : runLoop conf parse little st1 res1 (cc + 1) rest with
      | none =>
        rw [hrec] at hl
        simp at hl
      | some p =>
        obtain ⟨log2, r2⟩ := p
        rw [hrec] at hl
        obtain ⟨hlog, hr⟩ : l1 ++ log2 = log ∧ r2 = Except.ok res' := by simpa using hl
        subst hlog
        rw [hr] at hrec
        obtain ⟨ih1, ih2, ih3, ih4⟩ := ih st1 res1 (cc + 1) log2 res' hrec
        have hrtb1 : l1.count (DriverAction.resetTB true) = 1 := by
          rw [hrtb, hCR.1, hCR.2]
          simp
        refine ⟨?_, ?_, ?_, ?_⟩
        · rw [List.count_append, hcnt, ih1, hres1,
            updateRes_trace_count, updateRes_blocked_count]
          cases o.sleepset_empty <;> simp <;> omega
        · rw [List.count_append, List.count_append, hcnt, hrtb1, ih2]
          omega
        · intro hre
          have he1 : res1.error_trace = res.error_trace := by
            rw [hres1, updateRes_error_trace, hre]
            simp [DPORDriver.Result.has_errors] at hre
            simp [hre]
          have he2 : res1.has_errors = true := by
            simp [DPORDriver.Result.has_errors] at hre ⊢
            rw [he1]
            exact hre
          rw [ih3 he2, he1]
        · intro hall
          have h0 : (onceTrace conf o).has_errors = false := hall o (List.mem_cons_self o rest)
          have he1 : res1.error_trace = res.error_trace := by
            rw [hres1, updateRes_error_trace, h0]
            simp
          rw [ih4 (fun p hp => hall p (List.mem_cons_of_mem o hp)), he1]

theorem runLoop_stop_count (conf : Configuration) (parse : String → Option LlvmModule)
    (little : Bool) :
    ∀ (pre : List RunOutcome) (st : DriverState) (res : DPORDriver.Result) (cc : Nat)
      (log : List DriverAction) (res' : DPORDriver.Result) (o : RunOutcome)
      (rest : List RunOutcome),
      runLoop conf parse little st res cc (pre ++ o :: rest) = some (log, Except.ok res') →
      (∀ p ∈ pre, p.reset_ok = true ∧
        ((onceTrace conf p).has_errors = false ∨ conf.explore_all_traces = true)) →
      (((onceTrace conf o).has_errors = true ∧ conf.explore_all_traces = false)
        ∨ o.reset_ok = false) →
      log.count DriverAction.runOnceCall = pre.length + 1 := by
  intro pre
  induction pre with
  | nil =>
    intro st res cc log res' o rest hl hpre hstop
    rcases hit : runIter conf parse little st res cc o with ⟨l1, st1, res1, step⟩
    simp only [List.nil_append, runLoop] at hl
    rw [hit] at hl
    dsimp only at hl
    cases step with
    | thrown e => simp at hl
    | brk =>
      have hnt : ((runIter conf parse little st res cc o).2.2.2).isThrown = false := by
        rw [hit]; rfl
      obtain ⟨-, hcnt, -, -, -⟩ := runIter_spec conf parse little st res cc o hnt
      rw [hit] at hcnt
      dsimp only at hcnt
      obtain ⟨hlog, -⟩ : l1 = log ∧ res1 = res' := by simpa using hl
      subst hlog
      simpa using hcnt
    | done =>
      have hnt : ((runIter conf parse little st res cc o).2.2.2).isThrown = false := by
        rw [hit]; rfl
      obtain ⟨-, hcnt, -, -, -⟩ := runIter_spec conf parse little st res cc o hnt
      rw [hit] at hcnt
      dsimp only at hcnt
      obtain ⟨hlog, -⟩ : l1 = log ∧ res1 = res' := by simpa using hl
      subst hlog
      simpa using hcnt
    | cont =>
      exfalso
      have hnt : ((runIter conf parse little st res cc o).2.2.2).isThrown = false := by
        rw [hit]; rfl
      obtain ⟨-, -, hstep, -, -⟩ := runIter_spec conf parse little st res cc o hnt
      rw [hit] at hstep
      dsimp only at hstep
      rcases hstop with ⟨herr, hex⟩ | hrst
      · rw [herr, hex] at hstep
        simp at hstep
      · by_cases hC : ((onceTrace conf o).has_errors && !conf.explore_all_traces) = true
        · rw [if_pos hC] at hstep; simp at hstep
        · rw [if_neg hC, hrst] at hstep; simp at hstep
  | cons p pre' ih =>
    intro st res cc log res' o rest hl hpre hstop
    rcases hit : runIter conf parse little st res cc p with ⟨l1, st1, res1, step⟩
    simp only [List.cons_append, runLoop] at hl
    rw [hit] at hl
    dsimp only at hl
    obtain ⟨hprst, hperr⟩ := hpre p (List.mem_cons_self p pre')
    have hCp : ((onceTrace conf p).has_errors && !conf.explore_all_traces) = false := by
      rcases hperr with h0 | h0 <;> simp [h0]
    cases step with
    | thrown e => simp at hl
    | brk =>
      exfalso
      have hnt : ((runIter conf parse little st res cc p).2.2.2).isThrown = false := by
        rw [hit]; rfl
      obtain ⟨-, -, hstep, -, -⟩ := runIter_spec conf parse little st res cc p hnt
      rw [hit] at hstep
      dsimp only at hstep
      rw [hCp] at hstep
      simp [hprst] at hstep
    | done =>
      exfalso
      have hnt : ((runIter conf parse little st res cc p).2.2.2).isThrown = false := by
        rw [hit]; rfl
      obtain ⟨-, -, hstep, -, -⟩ := runIter_spec conf parse little st res cc p hnt
      rw [hit] at hstep
      dsimp only at hstep
      rw [hCp] at hstep
      simp [hprst] at hstep
    | cont =>
      have hnt : ((runIter conf parse little st res cc p).2.2.2).isThrown = false := by
        rw [hit]; rfl
      obtain ⟨-, hcnt, -, -, -⟩ := runIter_spec conf parse little st res cc p hnt
      rw [hit] at hcnt
      dsimp only at hcnt
      simp only [List.append_eq] at hl
      cases hrec : runLoop conf parse little st1 res1 (cc + 1) (pre' ++ o :: rest) with
      | none =>
        rw [hrec] at hl
        simp at hl
      | some q =>
        obtain ⟨log2, r2⟩ := q
        rw [hrec] at hl
        obtain ⟨hlog, hr⟩ : l1 ++ log2 = log ∧ r2 = Except.ok res' := by simpa using hl
        subst hlog
        rw [hr] at hrec
        have ih2 := ih st1 res1 (cc + 1) log2 res' o rest hrec
          (fun q hq => hpre q (List.mem_cons_of_mem p hq)) hstop
        rw [List.count_append, hcnt, ih2]
        simp [List.length_cons]
        omega

theorem runLoop_first_error (conf : Configuration) (parse : String → Option LlvmModule)
    (little : Bool) :
    ∀ (pre : List RunOutcome) (st : DriverState) (res : DPORDriver.Result) (cc : Nat)
      (log : List DriverAction) (res' : DPORDriver.Result) (o : RunOutcome)
      (rest : List RunOutcome),
      runLoop conf parse little st res cc (pre ++ o :: rest) = some (log, Except.ok res') →
      res.has_errors = false →
      (∀ p ∈ pre, (onceTrace conf p).has_errors = false ∧ p.reset_ok = true) →
      (onceTrace conf o).has_errors = true →
      res'.error_trace = onceTrace conf o := by
  intro pre
  induction pre with
  | nil =>
    intro st res cc log res' o rest hl hres hpre herr
    rcases hit : runIter conf parse little st res cc o with ⟨l1, st1, res1, step⟩
    simp only [List.nil_append, runLoop] at hl
    rw [hit] at hl
    dsimp only at hl
    cases step with
    | thrown e => simp at hl
    | brk =>
      have hnt : ((runIter conf parse little st res cc o).2.2.2).isThrown = false := by
        rw [hit]; rfl
      obtain ⟨hres1, -, -, -, -⟩ := runIter_spec conf parse little st res cc o hnt
      rw [hit] at hres1
      dsimp only at hres1
      obtain ⟨-, hres'⟩ : l1 = log ∧ res1 = res' := by simpa using hl
      subst hres'
      rw [hres1, updateRes_error_trace, herr, hres]
      simp
    | done =>
      have hnt : ((runIter conf parse little st res cc o).2.2.2).isThrown = false := by
        rw [hit]; rfl
      obtain ⟨hres1, -, -, -, -⟩ := runIter_spec conf parse little st res cc o hnt
      rw [hit] at hres1
      dsimp only at hres1
      obtain ⟨-, hres'⟩ : l1 = log ∧ res1 = res' := by simpa using hl
      subst hres'
      rw [hres1, updateRes_error_trace, herr, hres]
      simp
    | cont =>
      have hnt : ((runIter conf parse little st res cc o).2.2.2).isThrown = false := by
        rw [hit]; rfl
      obtain ⟨hres1, -, -, -, -⟩ := runIter_spec conf parse little st res cc o hnt
      rw [hit] at hres1
      dsimp only at hres1
      have he1 : res1.error_trace = onceTrace conf o := by
        rw [hres1, updateRes_error_trace, herr, hres]
        simp
      have he2 : res1.has_errors = true := by
        simp only [DPORDriver.Result.has_errors, he1]
        exact herr
      cases hrec : runLoop conf parse little st1 res1 (cc + 1) rest with
      | none =>
        rw [hrec] at hl
        simp at hl
      | some q =>
        obtain ⟨log2, r2⟩ := q
        rw [hrec] at hl
        obtain ⟨-, hr⟩ : l1 ++ log2 = log ∧ r2 = Except.ok res' := by simpa using hl
        rw [hr] at hrec
        obtain ⟨-, -, ih3, -⟩ := runLoop_ok_spec conf parse little rest st1 res1 (cc + 1)
          log2 res' hrec
        rw [ih3 he2, he1]
  | cons p pre' ih =>
    intro st res cc log res' o rest hl hres hpre herr
    rcases hit : runIter conf parse little st res cc p with ⟨l1, st1, res1, step⟩
    simp only [List.cons_append, runLoop] at hl
    rw [hit] at hl
    dsimp only at hl
    obtain ⟨hperr, hprst⟩ := hpre p (List.mem_cons_self p pre')
    have hCp : ((onceTrace conf p).has_errors && !conf.explore_all_traces) = false := by
      simp [hperr]
    cases step with
    | thrown e => simp at hl
    | brk =>
      exfalso
      have hnt : ((runIter conf parse little st res cc p).2.2.2).isThrown = false := by
        rw [hit]; rfl
      obtain ⟨-, -, hstep, -, -⟩ := runIter_spec conf parse little st res cc p hnt
      rw [hit] at hstep
      dsimp only at hstep
      rw [hCp] at hstep
      simp [hprst] at hstep
    | done =>
      exfalso
      have hnt : ((runIter conf parse little st res cc p).2.2.2).isThrown = false := by
        rw [hit]; rfl
      obtain ⟨-, -, hstep, -, -⟩ := runIter_spec conf parse little st res cc p hnt
      rw [hit] at hstep
      dsimp only at hstep
      rw [hCp] at hstep
      simp [hprst] at hstep
    | cont =>
      have hnt : ((runIter conf parse little st res cc p).2.2.2).isThrown = false := by
        rw [hit]; rfl
      obtain ⟨hres1, -, -, -, -⟩ := runIter_spec conf parse little st res cc p hnt
      rw [hit] at hres1
      dsimp only at hres1
      have he1 : res1.error_trace = res.error_trace := by
        rw [hres1, updateRes_error_trace, hperr]
        simp
      have he2 : res1.has_errors = false := by
        simp only [DPORDriver.Result.has_errors, he1]
        simpa [DPORDriver.Result.has_errors] using hres
      simp only [List.append_eq] at hl
      cases hrec : runLoop conf parse little st1 res1 (cc + 1) (pre' ++ o :: rest) with
      | none =>
        rw [hrec] at hl
        simp at hl
      | some q =>
        obtain ⟨log2, r2⟩ := q
        rw [hrec] at hl
        obtain ⟨-, hr⟩ : l1 ++ log2 = log ∧ r2 = Except.ok res' := by simpa using hl
        rw [hr] at hrec
        exact ih st1 res1 (cc + 1) log2 res' o rest hrec he2
          (fun q hq => hpre q (List.mem_cons_of_mem p hq)) herr

theorem runLoop_terminates (conf : Configuration) (parse : String → Option LlvmModule)
    (little : Bool) :
    ∀ (pre : List RunOutcome) (st : DriverState) (res : DPORDriver.Result) (cc : Nat)
      (o : RunOutcome) (rest : List RunOutcome),
      o.reset_ok = false →
      (runLoop conf parse little st res cc (pre ++ o :: rest)).isSome = true := by
  intro pre
  induction pre with
  | nil =>
    intro st res cc o rest hrst
    rcases hit : runIter conf parse little st res cc o with ⟨l1, st1, res1, step⟩
    simp only [List.nil_append, runLoop]
    rw [hit]
    dsimp only
    cases step with
    | thrown e => rfl
    | brk => rfl
    | done => rfl
    | cont =>
      exfalso
      have hnt : ((runIter conf parse little st res cc o).2.2.2).isThrown = false := by
        rw [hit]; rfl
      obtain ⟨-, -, hstep, -, -⟩ := runIter_spec conf parse little st res cc o hnt
      rw [hit] at hstep
      dsimp only at hstep
      by_cases hC : ((onceTrace conf o).has_errors && !conf.explore_all_traces) = true
      · rw [if_pos hC] at hstep; simp at hstep
      · rw [if_neg hC, hrst] at hstep; simp at hstep
  | cons p pre' ih =>
    intro st res cc o rest hrst
    rcases hit : runIter conf parse little st res cc p with ⟨l1, st1, res1, step⟩
    simp only [List.cons_append, runLoop]
    rw [hit]
    dsimp only
    cases step with
    | thrown e => rfl
    | brk => rfl
    | done => rfl
    | cont =>
      have := ih st1 res1 (cc + 1) o rest hrst
      cases hrec : runLoop conf parse little st1 res1 (cc + 1) (pre' ++ o :: rest) with
      | none => rw [hrec] at this; simp at this
      | some q =>
        obtain ⟨log2, r2⟩ := q
        rfl

theorem run_ok_inv (conf : Configuration) (parse : String → Option LlvmModule)
    (little : Bool) (st : DriverState) (outcomes : List RunOutcome)
    (log : List DriverAction) (res : DPORDriver.Result)
    (h : DPORDriver.run conf parse little st outcomes = some (log, Except.ok res)) :
    ∃ inner, runLoop conf parse little st DPORDriver.Result.init 0 outcomes
        = some (inner, Except.ok res)
      ∧ log = DriverAction.setupSignalHandler ::
          (inner ++ [DriverAction.resetSignalHandler, DriverAction.deleteTB]) := by
  unfold DPORDriver.run at h
  cases hm : conf.memory_model <;> rw [hm] at h <;> dsimp only at h
  case Other => simp at h
  all_goals
    cases hLoop : runLoop conf parse little st DPORDriver.Result.init 0 outcomes with
    | none => rw [hLoop] at h; simp at h
    | some p =>
      obtain ⟨inner, r⟩ := p
      rw [hLoop] at h
      cases r with
      | error e => simp at h
      | ok res0 =>
        obtain ⟨hlog, hres⟩ : DriverAction.setupSignalHandler ::
            (inner ++ [DriverAction.resetSignalHandler, DriverAction.deleteTB]) = log
            ∧ res0 = res := by simpa using h
        exact ⟨inner, by rw [hres], hlog.symm⟩

theorem run_error_inv (conf : Configuration) (parse : String → Option LlvmModule)
    (little : Bool) (st : DriverState) (outcomes : List RunOutcome)
    (log : List DriverAction) (e : DriverErr)
    (h : DPORDriver.run conf parse little st outcomes = some (log, Except.error e)) :
    (log = [] ∧ e = DriverErr.unsupportedMemoryModel)
    ∨ ∃ inner, runLoop conf parse little st DPORDriver.Result.init 0 outcomes
          = some (inner, Except.error e)
        ∧ log = DriverAction.setupSignalHandler :: inner := by
  unfold DPORDriver.run at h
  cases hm : conf.memory_model <;> rw [hm] at h <;> dsimp only at h
  case Other =>
    obtain ⟨h1, h2⟩ : ([] : List DriverAction) = log
        ∧ DriverErr.unsupportedMemoryModel = e := by simpa using h
    exact Or.inl ⟨h1.symm, h2.symm⟩
  all_goals
    cases hLoop : runLoop conf parse little st DPORDriver.Result.init 0 outcomes with
    | none => rw [hLoop] at h; simp at h
    | some p =>
      obtain ⟨inner, r⟩ := p
      rw [hLoop] at h
      cases r with
      | ok res0 => simp at h
      | error e0 =>
        obtain ⟨hlog, he⟩ : DriverAction.setupSignalHandler :: inner = log ∧ e0 = e := by
          simpa using h
        exact Or.inr ⟨inner, by rw [he], hlog.symm⟩

theorem wrapper_count (inner : List DriverAction) (a : DriverAction)
    (h1 : a ≠ DriverAction.setupSignalHandler) (h2 : a ≠ DriverAction.resetSignalHandler)
    (h3 : a ≠ DriverAction.deleteTB) :
    (DriverAction.setupSignalHandler ::
        (inner ++ [DriverAction.resetSignalHandler, DriverAction.deleteTB])).count a
      = inner.count a := by
  simp [List.count_cons, List.count_append, h1, h2, h3]

/-! ### The claims -/

/-- C1: with `explore_all_traces = false` the exploration loop stops right
after the first run whose trace reports errors (exactly `|pre| + 1` calls
of `run_once` happen when the runs before the erroneous one are
error-free and keep resetting); with `explore_all_traces = true` an
erroneous run does not end the loop, which keeps running until
`TB.reset()` reports exhaustion (`|pre| + 1` runs happen no matter which
of the first `|pre|` runs had errors). -/
theorem claim_C1 :
    (∀ (conf : Configuration) (parse : String → Option LlvmModule) (little : Bool)
        (st : DriverState) (pre : List RunOutcome) (o : RunOutcome)
        (rest : List RunOutcome) (log : List DriverAction) (res : DPORDriver.Result),
      conf.explore_all_traces = false →
      DPORDriver.run conf parse little st (pre ++ o :: rest) = some (log, Except.ok res) →
      (∀ p ∈ pre, (onceTrace conf p).has_errors = false ∧ p.reset_ok = true) →
      (onceTrace conf o).has_errors = true →
      log.count DriverAction.runOnceCall = pre.length + 1)
    ∧ (∀ (conf : Configuration) (parse : String → Option LlvmModule) (little : Bool)
        (st : DriverState) (pre : List RunOutcome) (o : RunOutcome)
        (rest : List RunOutcome) (log : List DriverAction) (res : DPORDriver.Result),
      conf.explore_all_traces = true →
      DPORDriver.run conf parse little st (pre ++ o :: rest) = some (log, Except.ok res) →
      (∀ p ∈ pre, p.reset_ok = true) →
      o.reset_ok = false →
      log.count DriverAction.runOnceCall = pre.length + 1) := by
  constructor
  · intro conf parse little st pre o rest log res hexp hrun hpre herr
    obtain ⟨inner, hLoop, hlog⟩ := run_ok_inv conf parse little st _ log res hrun
    subst hlog
    rw [wrapper_count inner DriverAction.runOnceCall (by simp) (by simp) (by simp)]
    exact runLoop_stop_count conf parse little pre st DPORDriver.Result.init 0 inner res
      o rest hLoop (fun p hp => ⟨(hpre p hp).2, Or.inl (hpre p hp).1⟩)
      (Or.inl ⟨herr, hexp⟩)
  · intro conf parse little st pre o rest log res hexp hrun hpre hrst
    obtain ⟨inner, hLoop, hlog⟩ := run_ok_inv conf parse little st _ log res hrun
    subst hlog
    rw [wrapper_count inner DriverAction.runOnceCall (by simp) (by simp) (by simp)]
    exact runLoop_stop_count conf parse little pre st DPORDriver.Result.init 0 inner res
      o rest hLoop (fun p hp => ⟨hpre p hp, Or.inr hexp⟩) (Or.inr hrst)

/-- C2: each completed run bumps exactly one of the two counters —
`trace_count` when the sleep set is empty at run end, otherwise
`sleepset_blocked_trace_count` — and the sum of the two counters in the
returned `Result` equals the number of `run_once` calls of the
exploration. -/
theorem claim_C2 :
    (∀ (conf : Configuration) (res : DPORDriver.Result) (se : Bool) (t : Trace),
      (updateRes conf res se t).trace_count
          + (updateRes conf res se t).sleepset_blocked_trace_count
        = res.trace_count + res.sleepset_blocked_trace_count + 1
      ∧ (updateRes conf res se t).trace_count = res.trace_count + (if se then 1 else 0)
      ∧ (updateRes conf res se t).sleepset_blocked_trace_count
          = res.sleepset_blocked_trace_count + (if se then 0 else 1))
    ∧ (∀ (conf : Configuration) (parse : String → Option LlvmModule) (little : Bool)
        (st : DriverState) (outcomes : List RunOutcome) (log : List DriverAction)
        (res : DPORDriver.Result),
      DPORDriver.run conf parse little st outcomes = some (log, Except.ok res) →
      res.trace_count + res.sleepset_blocked_trace_count
        = log.count DriverAction.runOnceCall) := by
  constructor
  · intro conf res se t
    refine ⟨?_, updateRes_trace_count conf res se t, updateRes_blocked_count conf res se t⟩
    rw [updateRes_trace_count, updateRes_blocked_count]
    cases se <;> simp <;> omega
  · intro conf parse little st outcomes log res hrun
    obtain ⟨inner, hLoop, hlog⟩ := run_ok_inv conf parse little st _ log res hrun
    subst hlog
    rw [wrapper_count inner DriverAction.runOnceCall (by simp) (by simp) (by simp)]
    have h1 := (runLoop_ok_spec conf parse little outcomes st DPORDriver.Result.init 0
      inner res hLoop).1
    simpa [DPORDriver.Result.init] using h1

/-- C3: the loop runs again exactly when `TB.reset()` reports a new
schedule — in a normally completed exploration the number of `run_once`
calls is one more than the number of `TB.reset()` calls that returned
true — and whenever some oracle entry reports exhaustion
(`reset_ok = false`), `run()` terminates on any oracle extension. -/
theorem claim_C3 :
    (∀ (conf : Configuration) (parse : String → Option LlvmModule) (little : Bool)
        (st : DriverState) (outcomes : List RunOutcome) (log : List DriverAction)
        (res : DPORDriver.Result),
      DPORDriver.run conf parse little st outcomes = some (log, Except.ok res) →
      log.count DriverAction.runOnceCall = log.count (DriverAction.resetTB true) + 1)
    ∧ (∀ (conf : Configuration) (parse : String → Option LlvmModule) (little : Bool)
        (st : DriverState) (pre : List RunOutcome) (o : RunOutcome)
        (rest : List RunOutcome),
      o.reset_ok = false →
      (DPORDriver.run conf parse little st (pre ++ o :: rest)).isSome = true) := by
  constructor
  · intro conf parse little st outcomes log res hrun
    obtain ⟨inner, hLoop, hlog⟩ := run_ok_inv conf parse little st _ log res hrun
    subst hlog
    rw [wrapper_count inner DriverAction.runOnceCall (by simp) (by simp) (by simp),
      wrapper_count inner (DriverAction.resetTB true) (by simp) (by simp) (by simp)]
    exact (runLoop_ok_spec conf parse little outcomes st DPORDriver.Result.init 0
      inner res hLoop).2.1
  · intro conf parse little st pre o rest hrst
    unfold DPORDriver.run
    cases hm : conf.memory_model <;> dsimp only
    case Other => rfl
    all_goals
      have hter := runLoop_terminates conf parse little pre st DPORDriver.Result.init 0
        o rest hrst
      cases hLoop : runLoop conf parse little st DPORDriver.Result.init 0
          (pre ++ o :: rest) with
      | none => rw [hLoop] at hter; simp at hter
      | some p =>
        obtain ⟨inner, r⟩ := p
        cases r <;> rfl

/-- C4: the `Result`'s error trace is the trace of the first erroneous
run — recorded when it happens and never overwritten by later erroneous
runs — and when no executed run produced an erroneous trace the returned
`Result` still carries the default empty error trace. -/
theorem claim_C4 :
    (∀ (conf : Configuration) (parse : String → Option LlvmModule) (little : Bool)
        (st : DriverState) (pre : List RunOutcome) (o : RunOutcome)
        (rest : List RunOutcome) (log : List DriverAction) (res : DPORDriver.Result),
      DPORDriver.run conf parse little st (pre ++ o :: rest) = some (log, Except.ok res) →
      (∀ p ∈ pre, (onceTrace conf p).has_errors = false ∧ p.reset_ok = true) →
      (onceTrace conf o).has_errors = true →
      res.error_trace = onceTrace conf o)
    ∧ (∀ (conf : Configuration) (parse : String → Option LlvmModule) (little : Bool)
        (st : DriverState) (outcomes : List RunOutcome) (log : List DriverAction)
        (res : DPORDriver.Result),
      DPORDriver.run conf parse little st outcomes = some (log, Except.ok res) →
      (∀ p ∈ outcomes, (onceTrace conf p).has_errors = false) →
      res.error_trace = Trace.empty) := by
  constructor
  · intro conf parse little st pre o rest log res hrun hpre herr
    obtain ⟨inner, hLoop, -⟩ := run_ok_inv conf parse little st _ log res hrun
    exact runLoop_first_error conf parse little pre st DPORDriver.Result.init 0 inner res
      o rest hLoop (by rfl) hpre herr
  · intro conf parse little st outcomes log res hrun hall
    obtain ⟨inner, hLoop, -⟩ := run_ok_inv conf parse little st _ log res hrun
    have h4 := (runLoop_ok_spec conf parse little outcomes st DPORDriver.Result.init 0
      inner res hLoop).2.2.2
    simpa [DPORDriver.Result.init] using h4 hall

/-- C5: a loop iteration invokes `reparse()` at its top exactly when
`(computation_count + 1) % 1000 = 0` (i.e. before every 1000th run), and
a successful `reparse()` only replaces the module: the stored source
text is unchanged and the new module is parsed from that same source
text. -/
theorem claim_C5 :
    (∀ (conf : Configuration) (parse : String → Option LlvmModule) (little : Bool)
        (st : DriverState) (res : DPORDriver.Result) (cc : Nat) (o : RunOutcome),
      DriverAction.reparseAct ∈ (runIter conf parse little st res cc o).1
        ↔ (cc + 1) % 1000 = 0)
    ∧ (∀ (parse : String → Option LlvmModule) (little : Bool) (st st' : DriverState),
      DPORDriver.reparse parse little st = Except.ok st' →
      st'.src = st.src ∧ ∃ m, parse st.src = some m) := by
  exact ⟨runIter_reparse_mem, reparse_src⟩

/-- C6: a malformed module (the parser returns nothing for the source
text) makes the `parseIR` + `run` pipeline fail with the distinguishable
parse error before anything happens (empty action log, so no run and no
handler setup); a module without a `main` function makes `run_once`
throw the distinguishable no-main error after engine creation but before
any modelled-program instruction (no static constructors, no `main`
call) runs. -/
theorem claim_C6 :
    (∀ (conf : Configuration) (parse : String → Option LlvmModule)
        (checkOk : LlvmModule → Bool) (little : Bool) (llvm_asm : String)
        (outcomes : List RunOutcome),
      parse llvm_asm = none →
      parseIRandRun conf parse checkOk little llvm_asm outcomes
        = some ([], Except.error DriverErr.parseFailed))
    ∧ (∀ (conf : Configuration) (mod : LlvmModule) (o : RunOutcome),
      conf.memory_model ≠ MemoryModel.Other → o.ee_create_ok = true →
      mod.has_main = false →
      DPORDriver.run_once conf mod o
          = ([DriverAction.runOnceCall, DriverAction.createEE],
              Except.error DriverErr.noMainFunction)
        ∧ DriverAction.runMain ∉ (DPORDriver.run_once conf mod o).1
        ∧ DriverAction.runStaticCtors ∉ (DPORDriver.run_once conf mod o).1) := by
  constructor
  · intro conf parse checkOk little llvm_asm outcomes hp
    simp [parseIRandRun, DPORDriver.parseIR, DPORDriver.reparse, hp]
  · intro conf mod o hmm hee hmain
    have heq : DPORDriver.run_once conf mod o
        = ([DriverAction.runOnceCall, DriverAction.createEE],
            Except.error DriverErr.noMainFunction) := by
      obtain ⟨mm, ex, dc, cr⟩ := conf
      obtain ⟨ee, tbe, se, ft, ro⟩ := o
      obtain ⟨hm, dl⟩ := mod
      simp only at hee hmain hmm
      subst hee hmain
      cases mm <;> simp_all [DPORDriver.run_once]
    refine ⟨heq, ?_, ?_⟩ <;> rw [heq] <;> simp

/-- C7: `checkForCycles()` runs at the end of a `run_once` call exactly
when robustness checking is enabled and the call completed normally; in
particular with `check_robustness = false` no `run_once` call ever logs
a robustness check. -/
theorem claim_C7 :
    ∀ (conf : Configuration) (mod : LlvmModule) (o : RunOutcome),
      DriverAction.checkCycles ∈ (DPORDriver.run_once conf mod o).1
        ↔ (conf.check_robustness = true
            ∧ ∃ t, (DPORDriver.run_once conf mod o).2 = Except.ok t) := by
  intro conf mod o
  obtain ⟨mm, ex, dc, cr⟩ := conf
  obtain ⟨ee, tbe, se, ft, ro⟩ := o
  obtain ⟨hm, dl⟩ := mod
  cases mm <;> cases ee <;> cases hm <;> cases cr <;>
    simp [DPORDriver.run_once, okLog]

/-- C8: a normally completed `run()` installs the SIGSEGV handler as its
very first action, never touches it during the exploration (no handler
action occurs between setup and reset), and resets it after the loop —
followed only by the TraceBuilder deletion — before returning. -/
theorem claim_C8 :
    ∀ (conf : Configuration) (parse : String → Option LlvmModule) (little : Bool)
      (st : DriverState) (outcomes : List RunOutcome) (log : List DriverAction)
      (res : DPORDriver.Result),
      DPORDriver.run conf parse little st outcomes = some (log, Except.ok res) →
      ∃ inner, log = DriverAction.setupSignalHandler ::
          (inner ++ [DriverAction.resetSignalHandler, DriverAction.deleteTB])
        ∧ ∀ a ∈ inner, a ≠ DriverAction.setupSignalHandler
            ∧ a ≠ DriverAction.resetSignalHandler ∧ a ≠ DriverAction.deleteTB := by
  intro conf parse little st outcomes log res hrun
  obtain ⟨inner, hLoop, hlog⟩ := run_ok_inv conf parse little st _ log res hrun
  exact ⟨inner, hlog,
    runLoop_actions conf parse little outcomes st DPORDriver.Result.init 0 inner
      (Except.ok res) hLoop⟩

/-- C9: a completed run whose TraceBuilder reports no error, under a
configuration that does not retain all traces, returns the empty trace
(the computed trace is elided); the interpreter's full trace is returned
exactly when the TraceBuilder reported an error or all traces are being
collected. -/
theorem claim_C9 :
    ∀ (conf : Configuration) (mod : LlvmModule) (o : RunOutcome),
      conf.memory_model ≠ MemoryModel.Other → o.ee_create_ok = true →
      mod.has_main = true →
      (o.tb_has_error = false → conf.debug_collect_all_traces = false →
        (DPORDriver.run_once conf mod o).2 = Except.ok Trace.empty)
      ∧ ((o.tb_has_error = true ∨ conf.debug_collect_all_traces = true) →
        (DPORDriver.run_once conf mod o).2 = Except.ok o.full_trace) := by
  intro conf mod o hmm hee hmain
  rw [run_once_ok conf mod o hmm hee hmain]
  constructor
  · intro h1 h2
    simp [onceTrace, h1, h2]
  · intro h1
    rcases h1 with h1 | h1 <;> simp [onceTrace, h1]

/-- C10: when an exception escapes the exploration loop, `run()`
propagates it without ever resetting the signal handler or deleting the
TraceBuilder; unless the exception is the unsupported-memory-model throw
(raised before the handler is touched), the handler had been installed
and is left installed. -/
theorem claim_C10 :
    ∀ (conf : Configuration) (parse : String → Option LlvmModule) (little : Bool)
      (st : DriverState) (outcomes : List RunOutcome) (log : List DriverAction)
      (e : DriverErr),
      DPORDriver.run conf parse little st outcomes = some (log, Except.error e) →
      DriverAction.resetSignalHandler ∉ log ∧ DriverAction.deleteTB ∉ log
      ∧ (e ≠ DriverErr.unsupportedMemoryModel → DriverAction.setupSignalHandler ∈ log) := by
  intro conf parse little st outcomes log e hrun
  rcases run_error_inv conf parse little st outcomes log e hrun with ⟨hlog, he⟩ | ⟨inner, hLoop, hlog⟩
  · subst hlog
    exact ⟨by simp, by simp, fun hne => absurd he hne⟩
  · subst hlog
    have hact := runLoop_actions conf parse little outcomes st DPORDriver.Result.init 0
      inner (Except.error e) hLoop
    refine ⟨?_, ?_, fun _ => List.mem_cons_self _ _⟩
    · intro hmem
      rcases List.mem_cons.mp hmem with h1 | h1
      · cases h1
      · exact (hact _ h1).2.1 rfl
    · intro hmem
      rcases List.mem_cons.mp hmem with h1 | h1
      · cases h1
      · exact (hact _ h1).2.2 rfl

/-! ### Concrete fixtures for the witnesses -/

/-- Stop-at-first-error configuration (SC, no trace collection). -/
def confStop : Configuration := ⟨MemoryModel.SC, false, false, false⟩

/-- Explore-all-traces configuration. -/
def confAll : Configuration := ⟨MemoryModel.SC, true, false, false⟩

/-- Configuration with robustness checking enabled. -/
def confRob : Configuration := ⟨MemoryModel.SC, false, false, true⟩

/-- A module with a `main` function. -/
def modW : LlvmModule := ⟨true, "e"⟩

/-- A module without a `main` function. -/
def modNoMain : LlvmModule := ⟨false, "e"⟩

/-- A parser that accepts any source. -/
def parseW : String → Option LlvmModule := fun _ => some modW

/-- A parser that rejects any source. -/
def parseNone : String → Option LlvmModule := fun _ => none

/-- A `check_functions` stand-in that accepts any module. -/
def checkAll : LlvmModule → Bool := fun _ => true

/-- Driver state holding a well-formed module. -/
def stW : DriverState := ⟨"m", modW⟩

/-- Driver state holding a module without `main`. -/
def stBad : DriverState := ⟨"m", modNoMain⟩

/-- An erroneous trace. -/
def traceErr : Trace := ⟨[], [], ["assert"]⟩

/-- A good run: no error, empty sleep set, reset finds a new schedule. -/
def oG : RunOutcome := ⟨true, false, true, Trace.empty, true⟩

/-- An erroneous run whose reset would find a new schedule. -/
def oE : RunOutcome := ⟨true, true, true, traceErr, true⟩

/-- A final good run: reset reports exhaustion. -/
def oL : RunOutcome := ⟨true, false, true, Trace.empty, false⟩

/-- A final erroneous, sleepset-blocked run. -/
def oEL : RunOutcome := ⟨true, true, false, traceErr, false⟩

/-- Action log of `run confStop parseW true stW [oG, oE]` (break on error). -/
def logStopW : List DriverAction :=
  [DriverAction.setupSignalHandler,
   DriverAction.runOnceCall, DriverAction.createEE, DriverAction.runStaticCtors,
   DriverAction.runMain, DriverAction.runStaticDtors, DriverAction.resetTB true,
   DriverAction.runOnceCall, DriverAction.createEE, DriverAction.runStaticCtors,
   DriverAction.runMain, DriverAction.runStaticDtors,
   DriverAction.resetSignalHandler, DriverAction.deleteTB]

/-- Result of `run confStop parseW true stW [oG, oE]`. -/
def resStopW : DPORDriver.Result := ⟨2, 0, traceErr, []⟩

/-- Action log of two-run explorations ending in reset exhaustion. -/
def logAllW : List DriverAction :=
  [DriverAction.setupSignalHandler,
   DriverAction.runOnceCall, DriverAction.createEE, DriverAction.runStaticCtors,
   DriverAction.runMain, DriverAction.runStaticDtors, DriverAction.resetTB true,
   DriverAction.runOnceCall, DriverAction.createEE, DriverAction.runStaticCtors,
   DriverAction.runMain, DriverAction.runStaticDtors, DriverAction.resetTB false,
   DriverAction.resetSignalHandler, DriverAction.deleteTB]

/-- Result of `run confAll parseW true stW [oE, oL]`. -/
def resAllW : DPORDriver.Result := ⟨2, 0, traceErr, []⟩

/-- Result of `run confAll parseW true stW [oG, oEL]`. -/
def resELW : DPORDriver.Result := ⟨1, 1, traceErr, []⟩

/-- Action log of the one-run exploration `run confStop parseW true stW [oL]`. -/
def logOneW : List DriverAction :=
  [DriverAction.setupSignalHandler,
   DriverAction.runOnceCall, DriverAction.createEE, DriverAction.runStaticCtors,
   DriverAction.runMain, DriverAction.runStaticDtors, DriverAction.resetTB false,
   DriverAction.resetSignalHandler, DriverAction.deleteTB]

/-- Result of `run confStop parseW true stW [oL]`. -/
def resOneW : DPORDriver.Result := ⟨1, 0, Trace.empty, []⟩

/-- Action log of the exploration aborted by the missing-main throw. -/
def logBadW : List DriverAction :=
  [DriverAction.setupSignalHandler, DriverAction.runOnceCall, DriverAction.createEE]

/-! ### Witnesses -/

theorem claim_C1_witness :
    logStopW.count DriverAction.runOnceCall = 2
    ∧ logAllW.count DriverAction.runOnceCall = 2 :=
  ⟨claim_C1.1 confStop parseW true stW [oG] oE [] logStopW resStopW rfl rfl
      (by decide) (by decide),
   claim_C1.2 confAll parseW true stW [oE] oL [] logAllW resAllW rfl rfl
      (by decide) rfl⟩

theorem claim_C2_witness :
    resOneW.trace_count + resOneW.sleepset_blocked_trace_count
      = logOneW.count DriverAction.runOnceCall :=
  claim_C2.2 confStop parseW true stW [oL] logOneW resOneW rfl

theorem claim_C3_witness :
    logOneW.count DriverAction.runOnceCall = logOneW.count (DriverAction.resetTB true) + 1
    ∧ (DPORDriver.run confStop parseW true stW [oL]).isSome = true :=
  ⟨claim_C3.1 confStop parseW true stW [oL] logOneW resOneW rfl,
   claim_C3.2 confStop parseW true stW [] oL [] rfl⟩

theorem claim_C4_witness :
    resELW.error_trace = onceTrace confAll oEL ∧ resOneW.error_trace = Trace.empty :=
  ⟨claim_C4.1 confAll parseW true stW [oG] oEL [] logAllW resELW rfl (by decide) (by decide),
   claim_C4.2 confStop parseW true stW [oL] logOneW resOneW rfl (by decide)⟩

theorem claim_C5_witness :
    DriverAction.reparseAct
        ∈ (runIter confStop parseW true stW DPORDriver.Result.init 999 oL).1
    ∧ (stW.src = stW.src ∧ ∃ m, parseW stW.src = some m) :=
  ⟨(claim_C5.1 confStop parseW true stW DPORDriver.Result.init 999 oL).mpr rfl,
   claim_C5.2 parseW true stW stW rfl⟩

theorem claim_C6_witness :
    parseIRandRun confStop parseNone checkAll true "x" []
        = some ([], Except.error DriverErr.parseFailed)
    ∧ (DPORDriver.run_once confStop modNoMain oG
          = ([DriverAction.runOnceCall, DriverAction.createEE],
              Except.error DriverErr.noMainFunction)
        ∧ DriverAction.runMain ∉ (DPORDriver.run_once confStop modNoMain oG).1
        ∧ DriverAction.runStaticCtors ∉ (DPORDriver.run_once confStop modNoMain oG).1) :=
  ⟨claim_C6.1 confStop parseNone checkAll true "x" [] rfl,
   claim_C6.2 confStop modNoMain oG (by decide) rfl rfl⟩

theorem claim_C7_witness :
    DriverAction.checkCycles ∈ (DPORDriver.run_once confRob modW oG).1
      ↔ (confRob.check_robustness = true
          ∧ ∃ t, (DPORDriver.run_once confRob modW oG).2 = Except.ok t) :=
  claim_C7 confRob modW oG

theorem claim_C8_witness :
    ∃ inner, logOneW = DriverAction.setupSignalHandler ::
        (inner ++ [DriverAction.resetSignalHandler, DriverAction.deleteTB])
      ∧ ∀ a ∈ inner, a ≠ DriverAction.setupSignalHandler
          ∧ a ≠ DriverAction.resetSignalHandler ∧ a ≠ DriverAction.deleteTB :=
  claim_C8 confStop parseW true stW [oL] logOneW resOneW rfl

theorem claim_C9_witness :
    (DPORDriver.run_once confStop modW oG).2 = Except.ok Trace.empty
    ∧ (DPORDriver.run_once confStop modW oE).2 = Except.ok oE.full_trace :=
  ⟨(claim_C9 confStop modW oG (by decide) rfl rfl).1 rfl rfl,
   (claim_C9 confStop modW oE (by decide) rfl rfl).2 (Or.inl rfl)⟩

theorem claim_C10_witness :
    DriverAction.resetSignalHandler ∉ logBadW ∧ DriverAction.deleteTB ∉ logBadW
    ∧ (DriverErr.noMainFunction ≠ DriverErr.unsupportedMemoryModel →
        DriverAction.setupSignalHandler ∈ logBadW) :=
  claim_C10 confStop parseW true stBad [oG] logBadW DriverErr.noMainFunction rfl
